import Mathlib

/-!
Verification of the `time_now` MCP tool defined in `app/api/mcp/route.js`.

The tool callback reads the current clock (`new Date()`, milliseconds since
the Unix epoch), formats it for the `tr-TR` locale in the `Europe/Istanbul`
timezone with two-digit day, month, hour, minute, second and a numeric year,
and returns a `ToolInvocationResult` holding exactly one text content block
whose text is the fixed Turkish prefix followed by the formatted timestamp.

The embedding models the clock reading as a natural number of milliseconds
since the Unix epoch, and `Europe/Istanbul` as the fixed offset UTC+3 that
the tz database assigns to it for every instant since 2016 (the timezone has
had no daylight-saving transitions since then, so every reachable reading of
a present-day clock falls in the fixed-offset regime).
-/

/-- A content block of a tool result: a tagged fragment with a `type` tag
(always the literal `"text"` for this tool) and a `text` payload. -/
structure ContentBlock where
  type : String
  text : String
deriving DecidableEq, Repr

/-- The result returned by a tool invocation: an ordered list of content
blocks, as in `{ content: [ { type: 'text', text: ... } ] }`. -/
structure ToolInvocationResult where
  content : List ContentBlock
deriving DecidableEq, Repr

/-- Civil date-time fields as displayed by the formatter: year, month, day,
hour, minute, second of a local wall-clock reading. -/
structure CivilDateTime where
  year : Nat
  month : Nat
  day : Nat
  hour : Nat
  minute : Nat
  second : Nat
deriving DecidableEq, Repr

/-- Gregorian leap-year rule (proleptic Gregorian calendar, as specified by
ECMA-262 / ECMA-402 for `Date` formatting). -/
def isLeap (y : Nat) : Bool :=
  (y % 4 == 0 && y % 100 != 0) || y % 400 == 0

/-- Number of days in a Gregorian calendar year. -/
def daysInYear (y : Nat) : Nat :=
  if isLeap y then 366 else 365

/-- Number of days in month `m` (1-based) of a year with leap flag `leap`. -/
def monthLen (leap : Bool) (m : Nat) : Nat :=
  match m with
  | 1 => 31
  | 2 => if leap then 29 else 28
  | 3 => 31
  | 4 => 30
  | 5 => 31
  | 6 => 30
  | 7 => 31
  | 8 => 31
  | 9 => 30
  | 10 => 31
  | 11 => 30
  | _ => 31

/-- Days in all months strictly before month `m` (1-based) of a year with
leap flag `leap`. -/
def daysBeforeMonth (leap : Bool) : Nat → Nat
  | 0 => 0
  | 1 => 0
  | m + 1 => daysBeforeMonth leap m + monthLen leap m

/-- Total number of days in the `n` calendar years 1970, …, 1969 + n. -/
def epochDays : Nat → Nat
  | 0 => 0
  | n + 1 => epochDays n + daysInYear (1970 + n)

/-- Year loop: starting `n` years after 1970 with `r` days remaining,
consume whole years until fewer than a year of days remains.  `fuel`
bounds the number of iterations; `fuel = r` always suffices because every
iteration removes at least 365 days.  Returns (years since 1970, day of
year). -/
def yGo : Nat → Nat → Nat → Nat × Nat
  | 0, n, r => (n, r)
  | fuel + 1, n, r =>
    if r < daysInYear (1970 + n) then (n, r)
    else yGo fuel (n + 1) (r - daysInYear (1970 + n))

/-- Split a count of days since 1970-01-01 into (years since 1970,
zero-based day of year). -/
def yearDoy (z : Nat) : Nat × Nat := yGo z 0 z

/-- Month loop: starting at month `m` (1-based) with zero-based day offset
`r`, consume whole months.  Returns (month, one-based day of month). -/
def mGo : Nat → Bool → Nat → Nat → Nat × Nat
  | 0, _, m, r => (m, r + 1)
  | fuel + 1, leap, m, r =>
    if r < monthLen leap m then (m, r + 1)
    else mGo fuel leap (m + 1) (r - monthLen leap m)

/-- Split a zero-based day of year into (month, one-based day of month). -/
def monthAndDay (leap : Bool) (doy : Nat) : Nat × Nat := mGo 11 leap 1 doy

/-- Gregorian civil date `(year, month, day)` from a count of days since
1970-01-01. -/
def civilFromDays (z : Nat) : Nat × Nat × Nat :=
  let yd := yearDoy z
  let md := monthAndDay (isLeap (1970 + yd.1)) yd.2
  (1970 + yd.1, md.1, md.2)

/-- Days since 1970-01-01 of the Gregorian civil date `(y, m, d)` (for
dates at or after the epoch). -/
def daysFromCivil (y m d : Nat) : Nat :=
  epochDays (y - 1970) + daysBeforeMonth (isLeap y) m + (d - 1)

/-- A Gregorian year has at least 365 days. -/
theorem daysInYear_ge (y : Nat) : 365 ≤ daysInYear y := by
  unfold daysInYear; split <;> omega

/-- Invariant of the year loop: the total day count `epochDays n + r` is
preserved, the year index only grows, and on exit (fuel at least `r`) the
remaining day offset is inside the final year. -/
theorem yGo_correct : ∀ fuel n r, r ≤ fuel → ∀ n' r', yGo fuel n r = (n', r') →
    epochDays n' + r' = epochDays n + r ∧ n ≤ n' ∧ r' < daysInYear (1970 + n') := by
  intro fuel
  induction fuel with
  | zero =>
    intro n r hr n' r' h
    have h365 := daysInYear_ge (1970 + n)
    simp only [yGo, Prod.mk.injEq] at h
    obtain ⟨h1, h2⟩ := h
    subst h1 h2
    omega
  | succ fuel ih =>
    intro n r hr n' r' h
    have h365 := daysInYear_ge (1970 + n)
    by_cases hc : r < daysInYear (1970 + n)
    · simp only [yGo, if_pos hc, Prod.mk.injEq] at h
      obtain ⟨h1, h2⟩ := h
      subst h1 h2
      omega
    · simp only [yGo, if_neg hc] at h
      have hrec := ih (n + 1) (r - daysInYear (1970 + n)) (by omega) n' r' h
      have hstep : epochDays (n + 1) = epochDays n + daysInYear (1970 + n) := rfl
      omega

set_option maxRecDepth 16384 in
/-- Month decoding is correct in a leap year: for any day-of-year below
366, the month loop yields a month in 1..12 and a day in 1..31 whose
re-encoding recovers the day-of-year. -/
theorem monthAndDay_correct_leap : ∀ doy : Nat, doy < 366 →
    1 ≤ (monthAndDay true doy).1 ∧ (monthAndDay true doy).1 ≤ 12 ∧
    1 ≤ (monthAndDay true doy).2 ∧ (monthAndDay true doy).2 ≤ 31 ∧
    daysBeforeMonth true (monthAndDay true doy).1 + (monthAndDay true doy).2 - 1 = doy := by
  decide

set_option maxRecDepth 16384 in
/-- Month decoding is correct in a common year: for any day-of-year below
365, the month loop yields a month in 1..12 and a day in 1..31 whose
re-encoding recovers the day-of-year. -/
theorem monthAndDay_correct_common : ∀ doy : Nat, doy < 365 →
    1 ≤ (monthAndDay false doy).1 ∧ (monthAndDay false doy).1 ≤ 12 ∧
    1 ≤ (monthAndDay false doy).2 ∧ (monthAndDay false doy).2 ≤ 31 ∧
    daysBeforeMonth false (monthAndDay false doy).1 + (monthAndDay false doy).2 - 1 = doy := by
  decide

/-- Month decoding is correct for any day-of-year inside a year with leap
flag `leap`. -/
theorem monthAndDay_correct (leap : Bool) (doy : Nat)
    (h : doy < (if leap then 366 else 365)) :
    1 ≤ (monthAndDay leap doy).1 ∧ (monthAndDay leap doy).1 ≤ 12 ∧
    1 ≤ (monthAndDay leap doy).2 ∧ (monthAndDay leap doy).2 ≤ 31 ∧
    daysBeforeMonth leap (monthAndDay leap doy).1 + (monthAndDay leap doy).2 - 1 = doy := by
  cases leap
  · exact monthAndDay_correct_common doy (by simpa using h)
  · exact monthAndDay_correct_leap doy (by simpa using h)

/-- The calendar conversions are mutually inverse on day counts at or after
the epoch, and the produced fields are in range. -/
theorem civilFromDays_correct (z : Nat) :
    daysFromCivil (civilFromDays z).1 (civilFromDays z).2.1 (civilFromDays z).2.2 = z ∧
    1970 ≤ (civilFromDays z).1 ∧
    1 ≤ (civilFromDays z).2.1 ∧ (civilFromDays z).2.1 ≤ 12 ∧
    1 ≤ (civilFromDays z).2.2 ∧ (civilFromDays z).2.2 ≤ 31 := by
  obtain ⟨hsum, hn, hdoy⟩ :=
    yGo_correct z 0 z (Nat.le_refl z) (yGo z 0 z).1 (yGo z 0 z).2 rfl
  have hdoyif : (yGo z 0 z).2 < (if isLeap (1970 + (yGo z 0 z).1) then 366 else 365) := by
    unfold daysInYear at hdoy
    exact hdoy
  obtain ⟨hm1, hm2, hd1, hd2, henc⟩ :=
    monthAndDay_correct (isLeap (1970 + (yGo z 0 z).1)) (yGo z 0 z).2 hdoyif
  refine ⟨?_, ?_, ?_, ?_, ?_, ?_⟩
  · show daysFromCivil (1970 + (yearDoy z).1)
      (monthAndDay (isLeap (1970 + (yearDoy z).1)) (yearDoy z).2).1
      (monthAndDay (isLeap (1970 + (yearDoy z).1)) (yearDoy z).2).2 = z
    unfold daysFromCivil yearDoy
    have hyr : 1970 + (yGo z 0 z).1 - 1970 = (yGo z 0 z).1 := by omega
    rw [hyr]
    simp only [epochDays] at hsum
    omega
  · show 1970 ≤ 1970 + (yearDoy z).1
    omega
  · exact hm1
  · exact hm2
  · exact hd1
  · exact hd2

/-- Fixed offset of the `Europe/Istanbul` timezone from UTC, in seconds.
The tz database assigns `Europe/Istanbul` the constant offset +03:00 with
no daylight-saving transitions for every instant since 2016. -/
def istOffsetSeconds : Nat := 3 * 3600

/-- Local Istanbul wall-clock seconds since the local epoch, from a clock
reading in milliseconds since the Unix epoch (`Date.now` semantics:
nonnegative integral milliseconds, truncated to whole seconds for
display). -/
def istSeconds (t : Nat) : Nat := t / 1000 + istOffsetSeconds

/-- Modelled from the spec: the civil date-time fields that ECMA-402 date
formatting displays for a clock reading `t` (ms since the Unix epoch) in
the `Europe/Istanbul` timezone — the proleptic Gregorian fields of the
local wall-clock instant `t/1000 + 3·3600` seconds. -/
def istFields (t : Nat) : CivilDateTime :=
  let s := istSeconds t
  let ymd := civilFromDays (s / 86400)
  { year := ymd.1, month := ymd.2.1, day := ymd.2.2,
    hour := s % 86400 / 3600, minute := s % 86400 % 3600 / 60,
    second := s % 86400 % 60 }

/-- The displayed fields determine the local-seconds reading exactly:
re-encoding the civil fields with the day count and time of day recovers
`istSeconds t`. -/
theorem istFields_recover (t : Nat) :
    daysFromCivil (istFields t).year (istFields t).month (istFields t).day * 86400 +
      ((istFields t).hour * 3600 + (istFields t).minute * 60 + (istFields t).second) =
    istSeconds t := by
  have h := (civilFromDays_correct (istSeconds t / 86400)).1
  simp only [istFields]
  omega

/-- The displayed fields are in their calendar and clock ranges. -/
theorem istFields_ranges (t : Nat) :
    1970 ≤ (istFields t).year ∧
    1 ≤ (istFields t).month ∧ (istFields t).month ≤ 12 ∧
    1 ≤ (istFields t).day ∧ (istFields t).day ≤ 31 ∧
    (istFields t).hour < 24 ∧ (istFields t).minute < 60 ∧ (istFields t).second < 60 := by
  have h := civilFromDays_correct (istSeconds t / 86400)
  simp only [istFields]
  omega

/-- The decimal digit character for a digit value below ten. -/
def digitChar (n : Nat) : Char := Char.ofNat (48 + n)

/-- Decimal rendering of a natural number, most significant digit first,
with `fuel` bounding the recursion depth (`fuel = n` always suffices). -/
def natDecAux : Nat → Nat → List Char
  | 0, n => [digitChar (n % 10)]
  | fuel + 1, n =>
    if n < 10 then [digitChar n]
    else natDecAux fuel (n / 10) ++ [digitChar (n % 10)]

/-- Decimal rendering of a natural number (the "numeric" year format). -/
def natDec (n : Nat) : List Char := natDecAux n n

/-- Value of a decimal digit string, used to invert `natDec`. -/
def valDec (l : List Char) : Nat :=
  l.foldl (fun a c => 10 * a + (c.toNat - 48)) 0

/-- Appending one digit multiplies the value by ten and adds the digit. -/
theorem valDec_append_digit (l : List Char) (c : Char) :
    valDec (l ++ [c]) = 10 * valDec l + (c.toNat - 48) := by
  simp [valDec, List.foldl_append]

/-- Code of a decimal digit character. -/
theorem digitChar_toNat : ∀ n, n < 10 → (digitChar n).toNat = 48 + n := by decide

/-- The fueled decimal renderer is inverted by `valDec` whenever the fuel
covers the argument. -/
theorem valDec_natDecAux : ∀ fuel n, n ≤ fuel ∨ n < 10 →
    valDec (natDecAux fuel n) = n := by
  intro fuel
  induction fuel with
  | zero =>
    intro n h
    have hn : n < 10 := by omega
    have hd := digitChar_toNat (n % 10) (by omega)
    simp [natDecAux, valDec]
    omega
  | succ fuel ih =>
    intro n h
    by_cases h10 : n < 10
    · have hd := digitChar_toNat n h10
      simp [natDecAux, if_pos h10, valDec]
      omega
    · have hd := digitChar_toNat (n % 10) (by omega)
      have hrec := ih (n / 10) (by omega)
      simp only [natDecAux, if_neg h10]
      rw [valDec_append_digit, hrec]
      omega

/-- Decimal rendering is inverted by `valDec`. -/
theorem valDec_natDec (n : Nat) : valDec (natDec n) = n :=
  valDec_natDecAux n n (Or.inl (Nat.le_refl n))

/-- Decimal rendering is injective. -/
theorem natDec_injective {a b : Nat} (h : natDec a = natDec b) : a = b := by
  have hv : valDec (natDec a) = valDec (natDec b) := by rw [h]
  rwa [valDec_natDec, valDec_natDec] at hv

/-- Two-digit rendering: pad a value below ten with a leading zero
(the "2-digit" format of the formatter options). -/
def pad2 (n : Nat) : List Char :=
  if n < 10 then ['0', digitChar n] else natDec n

set_option maxRecDepth 4096 in
/-- Two-digit rendering of a value below 100 has exactly two characters. -/
theorem pad2_length : ∀ n, n < 100 → (pad2 n).length = 2 := by decide

set_option maxRecDepth 4096 in
/-- Two-digit rendering is injective on values below 100. -/
theorem pad2_inj : ∀ a, a < 100 → ∀ b, b < 100 → pad2 a = pad2 b → a = b := by decide

/-- Modelled from the spec: the string produced by ECMA-402
`toLocaleString` for locale `tr-TR` with options `{ timeZone:
'Europe/Istanbul', hour: '2-digit', minute: '2-digit', second: '2-digit',
day: '2-digit', month: '2-digit', year: 'numeric' }` — the Turkish
convention `DD.MM.YYYY HH:MM:SS` over the given civil fields. -/
def tsChars (c : CivilDateTime) : List Char :=
  pad2 c.day ++ '.' :: pad2 c.month ++ '.' :: natDec c.year ++
    ' ' :: pad2 c.hour ++ ':' :: pad2 c.minute ++ ':' :: pad2 c.second

/-- The `timeString` computed by the callback for clock reading `t`
(ms since the Unix epoch): `now.toLocaleString('tr-TR', options)`. -/
def trTimeString (t : Nat) : String := String.mk (tsChars (istFields t))

/-- The fixed locale-specific sentence opening of the returned text. -/
def trOpening : String := "Şu an İstanbul saatiyle: "

/-- The `time_now` tool callback: reads the clock (modelled by the
parameter `t`, ms since the Unix epoch), formats it, and returns the
single-text-block result (`route.js` lines 10–26). -/
def timeNowCallback (t : Nat) : ToolInvocationResult :=
  { content := [{ type := "text", text := trOpening ++ trTimeString t }] }

/-- A tool registration, as handed to `server.tool`: the 4-tuple of name,
description, input schema and callback.  The input schema is modelled as
its list of declared properties (name and type); the empty object schema
`{}` is the empty list. -/
structure RegisteredTool where
  name : String
  description : String
  inputSchema : List (String × String)
  callback : Nat → ToolInvocationResult

/-- An MCP server instance as seen by the configuration closure: the
registries of tools, resources and prompts it accumulates. -/
structure McpServer where
  tools : List RegisteredTool
  resources : List String
  prompts : List String

/-- `server.tool(name, description, schema, callback)`: append one tool
registration to the server's tool registry. -/
def McpServer.tool (s : McpServer) (n d : String) (schema : List (String × String))
    (cb : Nat → ToolInvocationResult) : McpServer :=
  { s with tools := s.tools ++ [⟨n, d, schema, cb⟩] }

/-- The configuration closure passed to `createMcpHandler`: it registers
exactly the `time_now` tool (`route.js` lines 5–28). -/
def configureServer (server : McpServer) : McpServer :=
  server.tool "time_now"
    "Returns the current time in Istanbul (Europe/Istanbul timezone)"
    [] timeNowCallback

/-- Modelled from the spec: `createMcpHandler` hands the configuration
closure a fresh server instance with no prior registrations. -/
def freshServer : McpServer := ⟨[], [], []⟩

/-- Modelled from the spec: argument validation of the hosting framework
against the empty object schema — the tool accepts no parameters, so any
non-empty argument object is rejected before the callback runs. -/
def validatesEmptySchema (args : List (String × String)) : Bool :=
  args.isEmpty

/-- Infrastructure-level failures of the hosting runtime (spec §7): the
clock or the timezone database being unavailable. -/
inductive InfraFault where
  | clockUnavailable
  | tzdbUnavailable
deriving DecidableEq, Repr

/-- Modelled from the spec: the runtime environment an invocation runs in —
availability of the clock and of the timezone database, and the clock
reading (ms since the Unix epoch). -/
structure RuntimeEnv where
  clockAvailable : Bool
  tzdbAvailable : Bool
  nowMs : Nat

/-- Modelled from the spec: `new Date()` — reads the current clock, an
infrastructure fault if the clock is unavailable. -/
def readClock (env : RuntimeEnv) : Except InfraFault Nat :=
  if env.clockAvailable then .ok env.nowMs else .error .clockUnavailable

/-- Modelled from the spec: `toLocaleString` with an IANA timezone — needs
the timezone database, an infrastructure fault if it is unavailable. -/
def formatInIstanbul (env : RuntimeEnv) (t : Nat) : Except InfraFault String :=
  if env.tzdbAvailable then .ok (trTimeString t) else .error .tzdbUnavailable

/-- The callback run inside the fallible runtime: the only failure points
are the two infrastructure primitives; the callback itself has no error
branch. -/
def timeNowInvoke (env : RuntimeEnv) : Except InfraFault ToolInvocationResult := do
  let t ← readClock env
  let s ← formatInIstanbul env t
  pure { content := [{ type := "text", text := trOpening ++ s }] }

/-- The process state surrounding an invocation.  The callback's body
declares only invocation-local bindings (`now`, `options`, `timeString`)
and touches nothing else, so the embedding threads the ambient state
unchanged. -/
structure ProcessState where
  globals : List (String × String)

/-- The callback as a state transformer over the hosting process: reads
the clock, returns the result, leaves the process state as it was. -/
def timeNowStateful (σ : ProcessState) (t : Nat) : ToolInvocationResult × ProcessState :=
  (timeNowCallback t, σ)

/-- The callback as invoked with an argument object.  The source arrow
function `async () => {...}` binds no parameters, so an argument object
that reaches it is simply never consulted. -/
def timeNowWithArgs (_args : List (String × String)) (t : Nat) : ToolInvocationResult :=
  timeNowCallback t

/-- The rendered timestamp determines the civil fields: the format
`DD.MM.YYYY HH:MM:SS` is injective on fields whose two-digit components
are below 100. -/
theorem tsChars_inj (c1 c2 : CivilDateTime)
    (hd1 : c1.day < 100) (hm1 : c1.month < 100) (hh1 : c1.hour < 100)
    (hi1 : c1.minute < 100) (hs1 : c1.second < 100)
    (hd2 : c2.day < 100) (hm2 : c2.month < 100) (hh2 : c2.hour < 100)
    (hi2 : c2.minute < 100) (hs2 : c2.second < 100)
    (h : tsChars c1 = tsChars c2) : c1 = c2 := by
  cases c1 with
  | mk y1 mo1 dy1 hr1 mi1 sc1 =>
  cases c2 with
  | mk y2 mo2 dy2 hr2 mi2 sc2 =>
  simp only [tsChars, List.append_assoc, List.cons_append] at h
  obtain ⟨hday, h⟩ := List.append_inj h (by rw [pad2_length dy1 hd1, pad2_length dy2 hd2])
  injection h with hx h
  obtain ⟨hmon, h⟩ := List.append_inj h (by rw [pad2_length mo1 hm1, pad2_length mo2 hm2])
  injection h with hx h
  obtain ⟨hyear, h⟩ := List.append_inj' h (by
    simp [pad2_length hr1 hh1, pad2_length mi1 hi1, pad2_length sc1 hs1,
      pad2_length hr2 hh2, pad2_length mi2 hi2, pad2_length sc2 hs2])
  injection h with hx h
  obtain ⟨hhour, h⟩ := List.append_inj h (by rw [pad2_length hr1 hh1, pad2_length hr2 hh2])
  injection h with hx h
  obtain ⟨hmin, hsec⟩ := List.append_inj h (by rw [pad2_length mi1 hi1, pad2_length mi2 hi2])
  injection hsec with hx hsec
  simp only [CivilDateTime.mk.injEq]
  exact ⟨natDec_injective hyear, pad2_inj mo1 hm1 mo2 hm2 hmon, pad2_inj dy1 hd1 dy2 hd2 hday,
    pad2_inj hr1 hh1 hr2 hh2 hhour, pad2_inj mi1 hi1 mi2 hi2 hmin, pad2_inj sc1 hs1 sc2 hs2 hsec⟩

/-- C1: for every invocation, the single text field of the returned result
is the fixed locale-specific opening sentence followed by the formatted
timestamp of the clock reading's Europe/Istanbul civil fields, rendered
`DD.MM.YYYY HH:MM:SS` per the tr-TR conventions — day, month, hour,
minute and second each two characters wide, the year numeric. -/
theorem time_now_text_concatenation (t : Nat) :
    (timeNowCallback t).content.map ContentBlock.text =
      [trOpening ++ String.mk (tsChars (istFields t))] ∧
    (pad2 (istFields t).day).length = 2 ∧
    (pad2 (istFields t).month).length = 2 ∧
    (pad2 (istFields t).hour).length = 2 ∧
    (pad2 (istFields t).minute).length = 2 ∧
    (pad2 (istFields t).second).length = 2 := by
  have hr := istFields_ranges t
  exact ⟨rfl, pad2_length _ (by omega), pad2_length _ (by omega),
    pad2_length _ (by omega), pad2_length _ (by omega), pad2_length _ (by omega)⟩

/-- C2: every invocation returns a content list holding exactly one block,
and that block's type tag is the literal `"text"`. -/
theorem time_now_single_text_block (t : Nat) :
    (timeNowCallback t).content.length = 1 ∧
    (timeNowCallback t).content.map ContentBlock.type = ["text"] :=
  ⟨rfl, rfl⟩

/-- C3: invoked at the instant 2024-01-15T10:30:00Z (epoch milliseconds
1705314600000), the returned text block is the fixed-locale sentence and
contains the substrings `15.01.2024` and `13:30:00`. -/
theorem time_now_known_instant :
    (timeNowCallback 1705314600000).content.map ContentBlock.text =
      [trOpening ++ trTimeString 1705314600000] ∧
    (∃ p q, (trOpening ++ trTimeString 1705314600000).data =
      p ++ ("15.01.2024").data ++ q) ∧
    (∃ p q, (trOpening ++ trTimeString 1705314600000).data =
      p ++ ("13:30:00").data ++ q) := by
  refine ⟨rfl, ⟨("Şu an İstanbul saatiyle: ").data, (" 13:30:00").data, ?_⟩,
    ⟨("Şu an İstanbul saatiyle: 15.01.2024 ").data, [], ?_⟩⟩ <;> decide

/-- C4: whenever the clock and the timezone database are available, the
invocation runs to completion and returns the pure callback result — no
error branch is ever reached. -/
theorem time_now_no_failure (env : RuntimeEnv)
    (hclock : env.clockAvailable = true) (htz : env.tzdbAvailable = true) :
    timeNowInvoke env = Except.ok (timeNowCallback env.nowMs) := by
  obtain ⟨c, z, n⟩ := env
  dsimp only at hclock htz
  subst hclock htz
  rfl

/-- Witness for C4 at a concrete environment. -/
theorem time_now_no_failure_witness :
    timeNowInvoke ⟨true, true, 0⟩ = Except.ok (timeNowCallback 0) :=
  time_now_no_failure ⟨true, true, 0⟩ rfl rfl

/-- C5: the schema registered for `time_now` is the empty object schema,
and under that schema the hosting framework's validation rejects every
non-empty argument object. -/
theorem time_now_empty_schema (args : List (String × String)) (h : args ≠ []) :
    (configureServer freshServer).tools.map RegisteredTool.inputSchema = [[]] ∧
    validatesEmptySchema args = false := by
  refine ⟨rfl, ?_⟩
  cases args with
  | nil => exact absurd rfl h
  | cons a l => rfl

/-- Witness for C5 at a concrete non-empty argument object. -/
theorem time_now_empty_schema_witness :
    (configureServer freshServer).tools.map RegisteredTool.inputSchema = [[]] ∧
    validatesEmptySchema [("city", "string")] = false :=
  time_now_empty_schema [("city", "string")] (by decide)

/-- C6: the configuration closure registers exactly one tool — the
4-tuple with name `time_now`, the fixed description, the empty schema and
the callback — and no resource or prompt, so the tool-name registry is
collision-free. -/
theorem configure_registers_exactly_time_now :
    (configureServer freshServer).tools =
      [⟨"time_now", "Returns the current time in Istanbul (Europe/Istanbul timezone)",
        [], timeNowCallback⟩] ∧
    (configureServer freshServer).resources = [] ∧
    (configureServer freshServer).prompts = [] ∧
    ((configureServer freshServer).tools.map RegisteredTool.name).Nodup := by
  refine ⟨rfl, rfl, rfl, ?_⟩
  decide

/-- C7: two invocations whose clock readings are at least one second apart
produce different formatted strings. -/
theorem time_now_distinct_strings (t1 t2 : Nat) (h : t1 + 1000 ≤ t2) :
    trTimeString t1 ≠ trTimeString t2 := by
  intro heq
  have hdata : tsChars (istFields t1) = tsChars (istFields t2) :=
    congrArg String.data heq
  have r1 := istFields_ranges t1
  have r2 := istFields_ranges t2
  have hf : istFields t1 = istFields t2 :=
    tsChars_inj (istFields t1) (istFields t2) (by omega) (by omega) (by omega)
      (by omega) (by omega) (by omega) (by omega) (by omega) (by omega) (by omega) hdata
  have e1 := istFields_recover t1
  have e2 := istFields_recover t2
  rw [hf] at e1
  simp only [istSeconds, istOffsetSeconds] at e1 e2
  omega

/-- Witness for C7 at two concrete readings one second apart. -/
theorem time_now_distinct_strings_witness :
    trTimeString 0 ≠ trTimeString 1000 :=
  time_now_distinct_strings 0 1000 (by decide)

/-- C8: the timestamp embedded in the returned text — its displayed civil
fields re-encoded with the declared fixed offset of Europe/Istanbul —
denotes an instant within two seconds of the clock reading at
invocation. -/
theorem time_now_parse_back_tolerance (t : Nat) :
    ∃ c : CivilDateTime,
      trTimeString t = String.mk (tsChars c) ∧
      (daysFromCivil c.year c.month c.day * 86400 +
          (c.hour * 3600 + c.minute * 60 + c.second) - istOffsetSeconds) * 1000 ≤ t ∧
      t < (daysFromCivil c.year c.month c.day * 86400 +
          (c.hour * 3600 + c.minute * 60 + c.second) - istOffsetSeconds) * 1000 + 2000 := by
  have h := istFields_recover t
  simp only [istSeconds, istOffsetSeconds] at h
  refine ⟨istFields t, rfl, ?_, ?_⟩ <;>
    (simp only [istOffsetSeconds]; omega)

/-- C9: the callback is side-effect-free and idempotent with respect to
process state — it leaves the ambient state untouched, and its result
depends only on the clock reading, not on the state. -/
theorem time_now_stateless (σ1 σ2 : ProcessState) (t : Nat) :
    (timeNowStateful σ1 t).2 = σ1 ∧
    (timeNowStateful σ1 t).1 = (timeNowStateful σ2 t).1 ∧
    (timeNowStateful σ1 t).1 = timeNowCallback t :=
  ⟨rfl, rfl, rfl⟩

/-- C10: the callback binds no parameters, so an argument object that
reaches it leaves the result identical to a zero-argument invocation at
the same clock reading. -/
theorem time_now_ignores_args (args : List (String × String)) (t : Nat) :
    timeNowWithArgs args t = timeNowWithArgs [] t :=
  rfl
